import Mathlib

/-!
# Verification of the unfollower-bot job queue, analysis pipeline and payment machine

A shallow embedding of the parts of the repository that the specification's
claims are about, together with theorems settling each claim.

Conventions of the embedding:
* database tables are Lean lists of records; a SQLAlchemy `session.commit()`
  is one atomic state transition; a code path that commits several times is
  modelled as a list of `DB → DB` transitions whose prefixes are the states
  reachable after a crash;
* UUID primary keys are modelled as `Nat`, Telegram user ids as `Int`,
  UTC timestamps as `Int` (seconds since the epoch);
* `queue_position` values written by the code are always positive, so the
  column is modelled as `Option Nat`;
* external library calls with no logic of their own (MD5 digest, UUID
  parsing, decimal comparison) are passed in as function parameters.
-/

namespace UnfollowerBot

/-- `CheckStatusEnum` from app/models/models.py. -/
inductive CheckStatusEnum where
  | pending
  | processing
  | completed
  | failed
deriving DecidableEq, Repr

/-- A row of the `users` table (`User` in app/models/models.py), restricted to
the columns the claims mention. -/
structure User where
  user_id : Int
  checks_balance : Int
deriving DecidableEq, Repr

/-- A row of the `checks` table (`Check` in app/models/models.py), restricted to
the columns the claims mention. -/
structure Check where
  check_id : Nat
  user_id : Int
  status : CheckStatusEnum
  progress : Int
  queue_position : Option Nat
  started_at : Option Int
  error_message : Option String
  total_subscriptions : Option Int
  total_followers : Option Int
  total_non_mutual : Option Int
  completed_at : Option Int
deriving DecidableEq, Repr

/-- A row of the `non_mutual_users` table (`NonMutualUser` in
app/models/models.py), restricted to the columns the claims mention. -/
structure NonMutualUser where
  check_id : Nat
  target_user_id : Option String
  target_username : String
  target_full_name : Option String
  target_avatar_url : Option String
  user_follows_target : Bool
  target_follows_user : Bool
  is_mutual : Bool
deriving DecidableEq, Repr

/-- The database state seen by the check pipeline and the queue service.
`session_is_valid` models the `is_valid` flag of the active
`instagram_sessions` row (`mark_session_invalid` in
app/services/session_service.py clears it); `refund_log` records the
`(user_id, reason)` of every `refund_check_balance` call that found its user,
modelling the refund audit trail the service logs. -/
structure DB where
  users : List User
  checks : List Check
  non_mutual_users : List NonMutualUser
  session_is_valid : Bool
  refund_log : List (Int × String)
deriving DecidableEq, Repr

/-- First user row with the given id (`select(User).where(User.user_id == user_id)`). -/
def findUser (users : List User) (uid : Int) : Option User :=
  users.find? fun u => u.user_id == uid

/-- First check row with the given id (`select(Check).where(Check.check_id == check_id)`). -/
def findCheck (checks : List Check) (cid : Nat) : Option Check :=
  checks.find? fun c => c.check_id == cid

/-- `status ∈ (PENDING, PROCESSING)`, the filter used by the queue queries. -/
def isActiveStatus : CheckStatusEnum → Bool
  | .pending => true
  | .processing => true
  | _ => false

/-- The contribution of one row to the active-position multiset: its
`queue_position` when the status is active, nothing otherwise. -/
def activeEntry (c : Check) : Option Nat :=
  if isActiveStatus c.status then c.queue_position else none

/-- The non-null `queue_position` values of rows with active status: the
multiset over which the spec's uniqueness invariant is stated. -/
def activePositions (checks : List Check) : List Nat :=
  checks.filterMap activeEntry

/-- `select(func.max(Check.queue_position)).where(status.in_([PENDING, PROCESSING]))`
followed by `result.scalar() or 0` in `add_to_queue`
(app/services/queue_service.py): SQL `max` ignores NULLs and returns NULL on an
empty set, which `or 0` turns into 0. -/
def maxQueuePosition (checks : List Check) : Nat :=
  (activePositions checks).foldr max 0

/-- The row update performed by `add_to_queue`:
`update(Check).where(Check.check_id == check_id).values(queue_position=new_position)`. -/
def assignPosition (cid : Nat) (v : Nat) (c : Check) : Check :=
  if c.check_id = cid then { c with queue_position := some v } else c

/-- `add_to_queue` (app/services/queue_service.py lines 13-40): one transaction
that reads the maximum active queue position and writes `max + 1` into the row
with the given check id. Returns the new state and the assigned position. -/
def add_to_queue (checks : List Check) (cid : Nat) : List Check × Nat :=
  let new_position := maxQueuePosition checks + 1
  (checks.map (assignPosition cid new_position), new_position)

/-- `queue_position.getD 0`: used only to order rows whose position is known to
be non-null, mirroring `ORDER BY queue_position ASC` on a
`queue_position IS NOT NULL` result set. -/
def posOf (c : Check) : Nat :=
  c.queue_position.getD 0

/-- The candidate row of `get_next_in_queue`: among pending rows with a
non-null position, the first one with minimal position (`ORDER BY
queue_position ASC LIMIT 1`). -/
def nextInQueueCandidate (checks : List Check) : Option Check :=
  (checks.filter fun c => decide (c.status = .pending) && c.queue_position.isSome).foldl
    (fun acc c =>
      match acc with
      | none => some c
      | some b => if posOf c < posOf b then some c else some b)
    none

/-- `get_next_in_queue` (app/services/queue_service.py lines 43-68): takes the
lowest-positioned pending row, sets `status ← PROCESSING` and
`started_at ← now`, in one transaction. Returns the new state and the id of
the taken row, if any. -/
def get_next_in_queue (now : Int) (checks : List Check) : List Check × Option Nat :=
  match nextInQueueCandidate checks with
  | none => (checks, none)
  | some c =>
    (checks.map fun r =>
      if r.check_id = c.check_id then
        { r with status := .processing, started_at := some now }
      else r,
      some c.check_id)

/-- The error message written by `clear_stale_processing`. -/
def staleTimeoutMessage : String :=
  "Проверка превысила максимальное время выполнения"

/-- Whether `Check.started_at < threshold` holds in SQL: a NULL `started_at`
never satisfies the comparison. -/
def startedBefore (c : Check) (threshold : Int) : Bool :=
  match c.started_at with
  | some t => decide (t < threshold)
  | none => false

/-- `clear_stale_processing` (app/services/queue_service.py lines 160-187):
one transaction that, for every row in PROCESSING whose `started_at` is older
than `now - timeout_minutes`, sets `status ← FAILED` and the timeout error
message. It touches no other column and no other table. Returns the new check
table and the number of rows changed. -/
def clear_stale_processing_checks (now timeout_minutes : Int) (checks : List Check) :
    List Check × Nat :=
  let threshold := now - timeout_minutes * 60
  let isStale := fun (c : Check) => decide (c.status = .processing) && startedBefore c threshold
  (checks.map fun c =>
    if isStale c then { c with status := .failed, error_message := some staleTimeoutMessage }
    else c,
    (checks.filter isStale).length)

/-- `clear_stale_processing` lifted to the whole database state: the function
only queries and updates the `checks` table, so `users`, `non_mutual_users`,
the session flag and the refund log are untouched. -/
def clear_stale_processing (now timeout_minutes : Int) (db : DB) : DB × Nat :=
  let r := clear_stale_processing_checks now timeout_minutes db.checks
  ({ db with checks := r.fst }, r.snd)

/-- Rows counted by the compaction query of `update_queue_positions`:
`status == PENDING` and `queue_position IS NOT NULL`. -/
def pendingWithPos (c : Check) : Bool :=
  decide (c.status = .pending) && c.queue_position.isSome

/-- Insert a row into a list sorted by ascending `queue_position`. -/
def insertByPos (c : Check) : List Check → List Check
  | [] => [c]
  | x :: xs => if posOf c ≤ posOf x then c :: x :: xs else x :: insertByPos c xs

/-- Sort rows by ascending `queue_position` (`ORDER BY queue_position ASC`). -/
def sortByPos : List Check → List Check
  | [] => []
  | x :: xs => insertByPos x (sortByPos xs)

/-- `update_queue_positions` (app/services/queue_service.py lines 116-137):
one transaction that loads the pending rows having a queue position in
ascending position order and reassigns them the consecutive positions 1, 2,….
The i-th row of the sorted selection receives position i+1; with unique
check ids this is the position `sortedIds.indexOf c.check_id + 1`. Rows in
PROCESSING (or any other status) are not part of the selection and keep their
position. `compactedPosition` is the value the row with a given id receives:
one plus its rank in the sorted selection. -/
def compactedPosition (checks : List Check) (c : Check) : Nat :=
  ((sortByPos (checks.filter pendingWithPos)).map Check.check_id).indexOf c.check_id + 1

/-- The compaction transaction itself: reassign `compactedPosition` to every
selected row, leave every other row alone. -/
def update_queue_positions (checks : List Check) : List Check :=
  checks.map fun c =>
    if pendingWithPos c then { c with queue_position := some (compactedPosition checks c) }
    else c

/-- The check ids, for primary-key uniqueness hypotheses. -/
def checkIds (checks : List Check) : List Nat :=
  checks.map Check.check_id

/-- The spec's queue invariant: `queue_position` is unique among rows with
status in (PENDING, PROCESSING). -/
def uniqueActivePositions (checks : List Check) : Prop :=
  (activePositions checks).Nodup

instance (checks : List Check) : Decidable (uniqueActivePositions checks) := by
  unfold uniqueActivePositions
  infer_instance

/-- Positions currently held by pending rows (the rows `update_queue_positions`
renumbers). -/
def pendingPositions (checks : List Check) : List Nat :=
  checks.filterMap fun c => if pendingWithPos c then c.queue_position else none

/-- A processing row that has been running since t = 0. -/
def staleCheckRow : Check :=
  { check_id := 1, user_id := 7, status := .processing, progress := 50
    queue_position := some 1, started_at := some 0, error_message := none
    total_subscriptions := none, total_followers := none, total_non_mutual := none
    completed_at := none }

/-- A pending row queued behind `staleCheckRow`. -/
def queuedCheckRow : Check :=
  { check_id := 2, user_id := 7, status := .pending, progress := 0
    queue_position := some 2, started_at := none, error_message := none
    total_subscriptions := none, total_followers := none, total_non_mutual := none
    completed_at := none }

/-- Database state with one user (balance 0, having paid for the stale check)
and the two check rows above. -/
def staleDB : DB :=
  { users := [{ user_id := 7, checks_balance := 0 }]
    checks := [staleCheckRow, queuedCheckRow]
    non_mutual_users := [], session_is_valid := true, refund_log := [] }

end UnfollowerBot

namespace UnfollowerBot

/-- C1. The stale-recovery sweep run 45 minutes after `staleCheckRow` entered
PROCESSING (threshold 30 minutes) marks that row FAILED with the timeout
message, but — contrary to the claim — it leaves `queue_position` untouched
(still 1, not null), refunds nothing (the user's balance stays 0 and the
refund log stays empty), while the other job is indeed unaffected. -/
theorem clear_stale_processing_no_refund_eval :
    (clear_stale_processing 2700 30 staleDB).fst =
      { staleDB with
          checks := [{ staleCheckRow with
                        status := .failed,
                        error_message := some staleTimeoutMessage },
                     queuedCheckRow] }
    ∧ (clear_stale_processing 2700 30 staleDB).fst.users = [{ user_id := 7, checks_balance := 0 }]
    ∧ (clear_stale_processing 2700 30 staleDB).fst.refund_log = []
    ∧ (findCheck (clear_stale_processing 2700 30 staleDB).fst.checks 1).map Check.queue_position
        = some (some 1) := by
  decide

/-- Queue state with one processing row holding position 1 and one pending row
holding position 2: a routine mid-execution state. -/
def compactionChecks : List Check :=
  [{ staleCheckRow with started_at := some 2600 }, queuedCheckRow]

/-- C8 counterexample. On `compactionChecks` the uniqueness invariant holds,
yet one compaction run reassigns the pending row position 1 — colliding with
the position retained by the processing row — so the invariant is broken and
the active positions are [1, 1] rather than the consecutive 1..2. -/
theorem update_queue_positions_breaks_uniqueness :
    uniqueActivePositions compactionChecks
    ∧ ¬ uniqueActivePositions (update_queue_positions compactionChecks)
    ∧ activePositions (update_queue_positions compactionChecks) = [1, 1] := by
  decide

/-- Every member of a list is bounded by its `foldr max 0`. -/
theorem le_foldr_max {x : Nat} : ∀ {l : List Nat}, x ∈ l → x ≤ l.foldr max 0 := by
  intro l
  induction l with
  | nil => intro hx; cases hx
  | cons a tl ih =>
    intro hx
    rcases List.mem_cons.mp hx with rfl | h
    · exact le_max_left _ _
    · exact le_trans (ih h) (le_max_right _ _)

/-- If `g` agrees with `f` except for returning `none`, its `filterMap` is a
sublist of the one for `f`. -/
theorem filterMap_sublist_of_agree {α β : Type} {f g : α → Option β} :
    ∀ (l : List α), (∀ a ∈ l, g a = f a ∨ g a = none) →
      (l.filterMap g).Sublist (l.filterMap f) := by
  intro l
  induction l with
  | nil => intro _; simp
  | cons a tl ih =>
    intro hyp
    have htl := ih fun b hb => hyp b (List.mem_cons_of_mem a hb)
    rcases hyp a (List.mem_cons_self a tl) with hga | hga
    · rw [List.filterMap_cons, List.filterMap_cons, hga]
      cases hfa : f a with
      | none => exact htl
      | some b => exact htl.cons₂ b
    · rw [List.filterMap_cons, List.filterMap_cons, hga]
      cases hfa : f a with
      | none => exact htl
      | some b => exact htl.cons b

/-- What an updated row contributes to the active positions: the fresh value
`v` when it is the target and active, its old entry otherwise. -/
theorem activeEntry_assignPosition (cid v : Nat) (c : Check) :
    activeEntry (assignPosition cid v c) =
      if c.check_id = cid then (if isActiveStatus c.status then some v else none)
      else activeEntry c := by
  by_cases hc : c.check_id = cid <;> simp [assignPosition, activeEntry, hc]

/-- Updating one row with a value strictly above every active position keeps
the active positions pairwise distinct. -/
theorem nodup_activePositions_assign (cid v : Nat) :
    ∀ (l : List Check), (checkIds l).Nodup → (activePositions l).Nodup →
      (∀ x ∈ activePositions l, x < v) →
      (activePositions (l.map (assignPosition cid v))).Nodup := by
  intro l
  induction l with
  | nil => intro _ _ _; simp [activePositions]
  | cons a tl ih =>
    intro hids hnd hv
    have hids' : a.check_id ∉ (checkIds tl) ∧ (checkIds tl).Nodup := by
      simpa [checkIds, List.nodup_cons] using hids
    have hndtl : (activePositions tl).Nodup := by
      cases hha : activeEntry a with
      | none => simpa [activePositions, List.filterMap_cons, hha] using hnd
      | some x =>
        have := hnd
        simp only [activePositions, List.filterMap_cons, hha] at this
        exact (List.nodup_cons.mp this).2
    have hvtl : ∀ x ∈ activePositions tl, x < v := by
      intro x hx
      apply hv
      cases hha : activeEntry a with
      | none => simpa [activePositions, List.filterMap_cons, hha] using hx
      | some y =>
        simp only [activePositions, List.filterMap_cons, hha]
        exact List.mem_cons_of_mem y hx
    have hsub : ∀ x, x ∈ activePositions (tl.map (assignPosition cid v)) →
        x ∈ activePositions tl ∨ x = v := by
      intro x hx
      simp only [activePositions, List.filterMap_map] at hx
      rcases List.mem_filterMap.mp hx with ⟨b, hb, hbx⟩
      rw [Function.comp_apply, activeEntry_assignPosition] at hbx
      by_cases hbcid : b.check_id = cid
      · rw [if_pos hbcid] at hbx
        by_cases hact : isActiveStatus b.status
        · rw [if_pos hact] at hbx
          exact Or.inr (Option.some_injective _ hbx).symm
        · rw [if_neg hact] at hbx; cases hbx
      · rw [if_neg hbcid] at hbx
        exact Or.inl (List.mem_filterMap.mpr ⟨b, hb, hbx⟩)
    simp only [activePositions, List.map_cons, List.filterMap_cons,
      activeEntry_assignPosition]
    by_cases ha : a.check_id = cid
    · -- the head is the updated row; the tail contains no row with id `cid`
      have htl_eq : activePositions (tl.map (assignPosition cid v)) = activePositions tl := by
        simp only [activePositions, List.filterMap_map]
        apply List.filterMap_congr
        intro b hb
        rw [Function.comp_apply, activeEntry_assignPosition]
        have : b.check_id ≠ cid := by
          intro hbc
          exact hids'.1 (ha ▸ hbc ▸ List.mem_map_of_mem Check.check_id hb)
        rw [if_neg this]
      rw [if_pos ha]
      by_cases hact : isActiveStatus a.status
      · rw [if_pos hact]
        refine List.nodup_cons.mpr ⟨?_, ?_⟩
        · show v ∉ activePositions (List.map (assignPosition cid v) tl)
          rw [htl_eq]
          intro hmem
          exact absurd (hvtl v hmem) (lt_irrefl v)
        · show (activePositions (List.map (assignPosition cid v) tl)).Nodup
          rw [htl_eq]
          exact hndtl
      · rw [if_neg hact]
        show (activePositions (List.map (assignPosition cid v) tl)).Nodup
        rw [htl_eq]
        exact hndtl
    · rw [if_neg ha]
      cases hha : activeEntry a with
      | none =>
        exact ih hids'.2 hndtl hvtl
      | some x =>
        refine List.nodup_cons.mpr ⟨?_, ?_⟩
        · show x ∉ activePositions (List.map (assignPosition cid v) tl)
          intro hmem
          have hxv : x < v := by
            apply hv
            simp only [activePositions, List.filterMap_cons, hha]
            exact List.mem_cons_self x _
          rcases hsub x hmem with hin | rfl
          · have : x ∉ activePositions tl := by
              have := hnd
              simp only [activePositions, List.filterMap_cons, hha] at this
              exact (List.nodup_cons.mp this).1
            exact this hin
          · exact absurd hxv (lt_irrefl x)
        · show (activePositions (List.map (assignPosition cid v) tl)).Nodup
          exact ih hids'.2 hndtl hvtl

/-- Admission preserves the uniqueness invariant: the assigned position
`max + 1` is strictly above every active position. -/
theorem add_to_queue_preserves_unique (checks : List Check) (cid : Nat)
    (hids : (checkIds checks).Nodup) (hinv : uniqueActivePositions checks) :
    uniqueActivePositions (add_to_queue checks cid).fst := by
  have hv : ∀ x ∈ activePositions checks, x < maxQueuePosition checks + 1 := by
    intro x hx
    exact Nat.lt_succ_of_le (le_foldr_max hx)
  exact nodup_activePositions_assign cid (maxQueuePosition checks + 1) checks hids hinv hv

/-- The fold inside `nextInQueueCandidate` only ever returns its accumulator
or a member of the list. -/
theorem foldl_pick_mem :
    ∀ (l : List Check) (acc : Option Check) (c : Check),
      l.foldl (fun acc c =>
        match acc with
        | none => some c
        | some b => if posOf c < posOf b then some c else some b) acc = some c →
      acc = some c ∨ c ∈ l := by
  intro l
  induction l with
  | nil => intro acc c h; exact Or.inl h
  | cons a tl ih =>
    intro acc c h
    simp only [List.foldl_cons] at h
    rcases ih _ c h with hacc | hmem
    · cases acc with
      | none =>
        have : a = c := Option.some_injective _ hacc
        exact Or.inr (this ▸ List.mem_cons_self a tl)
      | some b =>
        have hacc' : (if posOf a < posOf b then some a else some b) = some c := hacc
        by_cases hlt : posOf a < posOf b
        · rw [if_pos hlt] at hacc'
          have : a = c := Option.some_injective _ hacc'
          exact Or.inr (this ▸ List.mem_cons_self a tl)
        · rw [if_neg hlt] at hacc'
          exact Or.inl hacc'
    · exact Or.inr (List.mem_cons_of_mem a hmem)

/-- The row taken by `get_next_in_queue` is a pending member of the table. -/
theorem nextInQueueCandidate_spec (checks : List Check) (c : Check)
    (h : nextInQueueCandidate checks = some c) :
    c ∈ checks ∧ c.status = .pending := by
  unfold nextInQueueCandidate at h
  rcases foldl_pick_mem _ none c h with hacc | hmem
  · cases hacc
  · have := List.mem_filter.mp hmem
    refine ⟨this.1, ?_⟩
    have hpred := this.2
    simp only [Bool.and_eq_true, decide_eq_true_eq] at hpred
    exact hpred.1

/-- Taking the next job (PENDING → PROCESSING on one row) leaves the active
position multiset literally unchanged, hence preserves uniqueness. -/
theorem get_next_in_queue_preserves_unique (now : Int) (checks : List Check)
    (hids : (checkIds checks).Nodup) (hinv : uniqueActivePositions checks) :
    uniqueActivePositions (get_next_in_queue now checks).fst := by
  unfold get_next_in_queue
  cases hcand : nextInQueueCandidate checks with
  | none => exact hinv
  | some cand =>
    have hspec := nextInQueueCandidate_spec checks cand hcand
    show (activePositions (checks.map fun r =>
      if r.check_id = cand.check_id then
        { r with status := .processing, started_at := some now }
      else r)).Nodup
    have heq : activePositions (checks.map fun r =>
        if r.check_id = cand.check_id then
          { r with status := .processing, started_at := some now }
        else r) = activePositions checks := by
      unfold activePositions
      rw [List.filterMap_map]
      apply List.filterMap_congr
      intro c hc
      by_cases hid : c.check_id = cand.check_id
      · have hceq : c = cand :=
          List.inj_on_of_nodup_map hids hc hspec.1 hid

        subst hceq
        simp [hid, activeEntry, isActiveStatus, hspec.2]
      · simp [hid]
    rw [heq]
    exact hinv

/-- Stale-recovery (PROCESSING → FAILED on stale rows) removes entries from
the active position multiset and adds none, hence preserves uniqueness. -/
theorem clear_stale_preserves_unique (now timeout : Int) (checks : List Check)
    (hinv : uniqueActivePositions checks) :
    uniqueActivePositions (clear_stale_processing_checks now timeout checks).fst := by
  unfold clear_stale_processing_checks
  show (activePositions (checks.map _)).Nodup
  unfold activePositions
  rw [List.filterMap_map]
  refine List.Sublist.nodup ?_ hinv
  apply filterMap_sublist_of_agree
  intro c _
  dsimp only [Function.comp]
  split
  · right
    simp [activeEntry, isActiveStatus]
  · left
    rfl

/-- `insertByPos` is a permutation of consing. -/
theorem insertByPos_perm (c : Check) : ∀ l : List Check, (insertByPos c l).Perm (c :: l)
  | [] => List.Perm.refl _
  | x :: xs => by
    unfold insertByPos
    by_cases h : posOf c ≤ posOf x
    · rw [if_pos h]
    · rw [if_neg h]
      exact ((insertByPos_perm c xs).cons x).trans (List.Perm.swap c x xs)

/-- `sortByPos` is a permutation of its input. -/
theorem sortByPos_perm : ∀ l : List Check, (sortByPos l).Perm l
  | [] => List.Perm.refl _
  | x :: xs => (insertByPos_perm x (sortByPos xs)).trans ((sortByPos_perm xs).cons x)

/-- A `filterMap` that keeps exactly the rows satisfying `p` and transforms
them with `q` is the map of the filter. -/
theorem filterMap_if_eq_map_filter {α β : Type} (p : α → Bool) (q : α → β) :
    ∀ l : List α,
      (l.filterMap fun a => if p a then some (q a) else none) = (l.filter p).map q := by
  intro l
  induction l with
  | nil => rfl
  | cons a tl ih =>
    by_cases hp : p a = true
    · simp [List.filterMap_cons, List.filter_cons, hp, ih]
    · simp [List.filterMap_cons, List.filter_cons, hp, ih]

/-- Mapping each element of a duplicate-free list to one plus its own index
yields the positions 1..length in order. -/
theorem map_indexOf_self_nodup (ids : List Nat) (h : ids.Nodup) :
    ids.map (fun x => ids.indexOf x + 1) = (List.range ids.length).map (fun i => i + 1) := by
  apply List.ext_getElem
  · simp
  · intro n h1 h2
    simp only [List.getElem_map, List.getElem_range]
    have hn : n < ids.length := by simpa using h1
    rw [List.indexOf_getElem h n hn]

/-- One compaction run gives the pending rows (those the query selects)
exactly the consecutive positions 1..K, in some order, where K is the number
of pending rows holding a position. -/
theorem update_queue_positions_pending_perm (checks : List Check)
    (hids : (checkIds checks).Nodup) :
    (pendingPositions (update_queue_positions checks)).Perm
      ((List.range (checks.filter pendingWithPos).length).map fun i => i + 1) := by
  have hPsub : ((checks.filter pendingWithPos).map Check.check_id).Sublist
      (checks.map Check.check_id) :=
    (List.filter_sublist checks).map Check.check_id
  have hPnd : ((checks.filter pendingWithPos).map Check.check_id).Nodup :=
    List.Sublist.nodup hPsub hids
  have hSperm : (sortByPos (checks.filter pendingWithPos)).Perm
      (checks.filter pendingWithPos) := sortByPos_perm _
  have hidsperm : ((sortByPos (checks.filter pendingWithPos)).map Check.check_id).Perm
      ((checks.filter pendingWithPos).map Check.check_id) := hSperm.map _
  have hidsnd : ((sortByPos (checks.filter pendingWithPos)).map Check.check_id).Nodup :=
    hidsperm.nodup_iff.mpr hPnd
  have step1 : pendingPositions (update_queue_positions checks)
      = ((checks.filter pendingWithPos).map Check.check_id).map
          (fun x =>
            ((sortByPos (checks.filter pendingWithPos)).map Check.check_id).indexOf x + 1) := by
    unfold pendingPositions update_queue_positions
    rw [List.filterMap_map]
    have hpt : ∀ c ∈ checks,
        ((fun c => if pendingWithPos c then c.queue_position else none) ∘
          fun c =>
            if pendingWithPos c then { c with queue_position := some (compactedPosition checks c) }
            else c) c
        = (if pendingWithPos c then some (compactedPosition checks c) else none) := by
      intro c _
      dsimp only [Function.comp]
      by_cases hpc : pendingWithPos c = true
      · have hparts := hpc
        simp only [pendingWithPos, Bool.and_eq_true, decide_eq_true_eq] at hparts
        simp [hpc, pendingWithPos, hparts.1, hparts.2]
      · simp [hpc]
    rw [List.filterMap_congr hpt]
    rw [filterMap_if_eq_map_filter pendingWithPos (fun c => compactedPosition checks c)]
    rw [List.map_map]
    rfl
  rw [step1]
  have step2 := List.Perm.map
    (fun x => ((sortByPos (checks.filter pendingWithPos)).map Check.check_id).indexOf x + 1)
    hidsperm.symm
  refine step2.trans ?_
  rw [map_indexOf_self_nodup _ hidsnd]
  have hlen : ((sortByPos (checks.filter pendingWithPos)).map Check.check_id).length
      = (checks.filter pendingWithPos).length := by
    rw [List.length_map]
    exact hSperm.length_eq
  rw [hlen]

/-- C8 amended. Admission, take-next and stale-recovery each preserve the
uniqueness of `queue_position` among rows in (PENDING, PROCESSING); one
compaction run gives the pending rows that hold a position exactly the
consecutive positions 1..K. (Compaction does not renumber PROCESSING rows, so
it does not preserve the combined invariant — see the counterexample.) -/
theorem queue_operations_positions (checks : List Check) (cid : Nat) (now timeout : Int)
    (hids : (checkIds checks).Nodup) (hinv : uniqueActivePositions checks) :
    uniqueActivePositions (add_to_queue checks cid).fst
    ∧ uniqueActivePositions (get_next_in_queue now checks).fst
    ∧ uniqueActivePositions (clear_stale_processing_checks now timeout checks).fst
    ∧ (pendingPositions (update_queue_positions checks)).Perm
        ((List.range (checks.filter pendingWithPos).length).map fun i => i + 1) :=
  ⟨add_to_queue_preserves_unique checks cid hids hinv,
   get_next_in_queue_preserves_unique now checks hids hinv,
   clear_stale_preserves_unique now timeout checks hinv,
   update_queue_positions_pending_perm checks hids⟩

/-- Witness for `queue_operations_positions` at the concrete two-row queue. -/
theorem queue_operations_positions_witness :
    ((checkIds compactionChecks).Nodup ∧ uniqueActivePositions compactionChecks)
    ∧ (uniqueActivePositions (add_to_queue compactionChecks 3).fst
       ∧ uniqueActivePositions (get_next_in_queue 2700 compactionChecks).fst
       ∧ uniqueActivePositions (clear_stale_processing_checks 2700 30 compactionChecks).fst
       ∧ (pendingPositions (update_queue_positions compactionChecks)).Perm
           ((List.range (compactionChecks.filter pendingWithPos).length).map fun i => i + 1)) :=
  ⟨⟨by decide, by decide⟩,
   queue_operations_positions compactionChecks 3 2700 30 (by decide) (by decide)⟩

end UnfollowerBot

namespace UnfollowerBot

/-! ## Transaction sequences and crash states (claims C3 and C4) -/

/-- Run a sequence of committed transactions to completion. -/
def runCommits (commits : List (DB → DB)) (db : DB) : DB :=
  commits.foldl (fun s f => f s) db

/-- The states reachable if the process crashes between commits: the initial
state and the state after every prefix of the commit sequence. -/
def crashStates (commits : List (DB → DB)) (db : DB) : List DB :=
  commits.scanl (fun s f => f s) db

/-- `update_check_status(check_id, status=FAILED, error_message=msg)`
(app/services/check_service.py lines 77-111): its own session and its own
commit, touching only the matching check row. -/
def update_check_status_failed (db : DB) (cid : Nat) (msg : String) : DB :=
  { db with
      checks := db.checks.map fun c =>
        if c.check_id = cid then { c with status := .failed, error_message := some msg } else c }

/-- `refund_check_balance` (app/services/check_service.py lines 31-55): its
own session and its own commit; adds one to the balance of the user row when
it exists, records the logged reason, and reports whether a refund happened. -/
def refund_check_balance (db : DB) (uid : Int) (reason : String) : DB × Bool :=
  match findUser db.users uid with
  | some _ =>
    ({ db with
        users := db.users.map fun u =>
          if u.user_id = uid then { u with checks_balance := u.checks_balance + 1 } else u,
        refund_log := db.refund_log ++ [(uid, reason)] },
     true)
  | none => (db, false)

/-- The commit sequence of every non-success terminal transition in
`process_check` (app/services/check_service.py lines 299-310 and the other
exception handlers): first the FAILED status write commits, then the refund
commits — two separate transactions. -/
def failTransitionCommits (cid : Nat) (uid : Int) (msg reason : String) : List (DB → DB) :=
  [fun db => update_check_status_failed db cid msg,
   fun db => (refund_check_balance db uid reason).fst]

/-- Generic lookup-after-update: mapping a keyed update over a list moves
through a `find?` on the key. -/
theorem find?_map_keyed {α : Type} (p : α → Bool) (upd f : α → α)
    (h1 : ∀ a, p a = true → upd a = f a)
    (h2 : ∀ a, ¬ p a = true → upd a = a)
    (h3 : ∀ a, p (f a) = p a) :
    ∀ l : List α, (l.map upd).find? p = (l.find? p).map f := by
  intro l
  induction l with
  | nil => rfl
  | cons a tl ih =>
    by_cases hpa : p a = true
    · rw [List.map_cons, h1 a hpa,
        List.find?_cons_of_pos _ (by rw [h3]; exact hpa),
        List.find?_cons_of_pos _ hpa]
      rfl
    · rw [List.map_cons, h2 a hpa,
        List.find?_cons_of_neg _ hpa,
        List.find?_cons_of_neg _ hpa, ih]

/-- Lookup of a check after the FAILED status write. -/
theorem findCheck_update_failed (db : DB) (cid : Nat) (msg : String) :
    findCheck (update_check_status_failed db cid msg).checks cid
      = (findCheck db.checks cid).map
          (fun c => { c with status := .failed, error_message := some msg }) := by
  unfold findCheck update_check_status_failed
  apply find?_map_keyed
  · intro a ha
    have : a.check_id = cid := by simpa using ha
    rw [if_pos this]
  · intro a ha
    have : ¬ a.check_id = cid := by simpa using ha
    rw [if_neg this]
  · intro a; rfl

/-- Lookup of a user after the refund increment. -/
theorem findUser_refund (db : DB) (uid : Int) (reason : String) (u : User)
    (hu : findUser db.users uid = some u) :
    findUser (refund_check_balance db uid reason).fst.users uid
      = some { u with checks_balance := u.checks_balance + 1 } := by
  unfold refund_check_balance
  rw [hu]
  have h1 : ∀ a : User, (a.user_id == uid) = true →
      (if a.user_id = uid then { a with checks_balance := a.checks_balance + 1 } else a)
        = { a with checks_balance := a.checks_balance + 1 } := by
    intro a ha
    have : a.user_id = uid := by simpa using ha
    rw [if_pos this]
  have h2 : ∀ a : User, ¬ (a.user_id == uid) = true →
      (if a.user_id = uid then { a with checks_balance := a.checks_balance + 1 } else a) = a := by
    intro a ha
    have : ¬ a.user_id = uid := by simpa using ha
    rw [if_neg this]
  have h3 : ∀ a : User,
      (({ a with checks_balance := a.checks_balance + 1 } : User).user_id == uid)
        = (a.user_id == uid) := by
    intro a; rfl
  have key := find?_map_keyed (fun a : User => a.user_id == uid)
    (fun a => if a.user_id = uid then { a with checks_balance := a.checks_balance + 1 } else a)
    (fun a => { a with checks_balance := a.checks_balance + 1 }) h1 h2 h3 db.users
  unfold findUser
  rw [key]
  unfold findUser at hu
  rw [hu]
  rfl

/-- C3 amended. On a non-success terminal transition the status write and the
refund are two separate transactions, in that order: the completed run leaves
the job FAILED with the balance refunded, but the state after only the first
commit — a reachable post-crash state — has the job already FAILED with the
balance and refund log untouched. -/
theorem fail_transition_two_transactions (db : DB) (cid : Nat) (uid : Int)
    (msg reason : String) (c : Check) (u : User)
    (hc : findCheck db.checks cid = some c)
    (hu : findUser db.users uid = some u) :
    ((findCheck (runCommits (failTransitionCommits cid uid msg reason) db).checks cid).map
        Check.status = some .failed
     ∧ (findUser (runCommits (failTransitionCommits cid uid msg reason) db).users uid).map
        User.checks_balance = some (u.checks_balance + 1))
    ∧ (update_check_status_failed db cid msg ∈
        crashStates (failTransitionCommits cid uid msg reason) db
       ∧ (findCheck (update_check_status_failed db cid msg).checks cid).map
           Check.status = some .failed
       ∧ findUser (update_check_status_failed db cid msg).users uid = some u
       ∧ (update_check_status_failed db cid msg).refund_log = db.refund_log) := by
  have husers1 : (update_check_status_failed db cid msg).users = db.users := rfl
  have hlog1 : (update_check_status_failed db cid msg).refund_log = db.refund_log := rfl
  have hu1 : findUser (update_check_status_failed db cid msg).users uid = some u := by
    rw [husers1]; exact hu
  have hrun : runCommits (failTransitionCommits cid uid msg reason) db
      = (refund_check_balance (update_check_status_failed db cid msg) uid reason).fst := rfl
  refine ⟨⟨?_, ?_⟩, ?_, ?_, hu1, hlog1⟩
  · rw [hrun]
    have hchecks2 : (refund_check_balance (update_check_status_failed db cid msg) uid
        reason).fst.checks = (update_check_status_failed db cid msg).checks := by
      unfold refund_check_balance
      rw [hu1]
    rw [show findCheck (refund_check_balance (update_check_status_failed db cid msg) uid
          reason).fst.checks cid
        = findCheck (update_check_status_failed db cid msg).checks cid from by rw [hchecks2]]
    rw [findCheck_update_failed, hc]
    rfl
  · rw [hrun, findUser_refund _ _ _ _ hu1]
    rfl
  · show update_check_status_failed db cid msg ∈
      List.scanl (fun s f => f s) db (failTransitionCommits cid uid msg reason)
    simp [failTransitionCommits, List.scanl]
  · rw [findCheck_update_failed, hc]
    rfl

/-- Bankrupt-then-failed database: one user who has paid for the one check
that is about to fail. -/
def refundDB : DB :=
  { users := [{ user_id := 7, checks_balance := 0 }]
    checks := [{ staleCheckRow with check_id := 3 }]
    non_mutual_users := [], session_is_valid := true, refund_log := [] }

/-- C3 counterexample. Crashing after the first commit of the failure path
leaves a reachable state in which check 3 is FAILED while user 7 still has
balance 0 and no refund was recorded — job status and balance disagree. -/
theorem fail_transition_crash_state_unrefunded :
    update_check_status_failed refundDB 3 "err" ∈
      crashStates (failTransitionCommits 3 7 "err" "UserNotFound: alice") refundDB
    ∧ (findCheck (update_check_status_failed refundDB 3 "err").checks 3).map Check.status
        = some .failed
    ∧ findUser (update_check_status_failed refundDB 3 "err").users 7
        = some { user_id := 7, checks_balance := 0 }
    ∧ (update_check_status_failed refundDB 3 "err").refund_log = [] := by
  refine ⟨?_, by decide, by decide, by decide⟩
  show _ ∈ List.scanl _ refundDB _
  simp [failTransitionCommits, List.scanl]

/-- Witness for `fail_transition_two_transactions` on `refundDB`. -/
theorem fail_transition_two_transactions_witness :
    ((findCheck (runCommits (failTransitionCommits 3 7 "err" "r") refundDB).checks 3).map
        Check.status = some .failed
     ∧ (findUser (runCommits (failTransitionCommits 3 7 "err" "r") refundDB).users 7).map
        User.checks_balance = some (0 + 1))
    ∧ (update_check_status_failed refundDB 3 "err" ∈
        crashStates (failTransitionCommits 3 7 "err" "r") refundDB
       ∧ (findCheck (update_check_status_failed refundDB 3 "err").checks 3).map
           Check.status = some .failed
       ∧ findUser (update_check_status_failed refundDB 3 "err").users 7
           = some { user_id := 7, checks_balance := 0 }
       ∧ (update_check_status_failed refundDB 3 "err").refund_log = refundDB.refund_log) :=
  fail_transition_two_transactions refundDB 3 7 "err" "r"
    { staleCheckRow with check_id := 3 } { user_id := 7, checks_balance := 0 }
    (by decide) (by decide)

/-! ## Job admission (claim C4) -/

/-- The check row inserted by `initiate_check` (app/api/router.py lines
90-99): status PENDING, no queue position yet, default progress 0. -/
def newCheck (cid : Nat) (uid : Int) : Check :=
  { check_id := cid, user_id := uid, status := .pending, progress := 0
    queue_position := none, started_at := none, error_message := none
    total_subscriptions := none, total_followers := none, total_non_mutual := none
    completed_at := none }

/-- The first transaction of `initiate_check` (committed at app/api/router.py
line 98): decrement the user's balance by one and insert the new check row.
Both writes share this one commit. -/
def initiate_check_commit1 (db : DB) (uid : Int) (cid : Nat) : DB :=
  { db with
      users := db.users.map fun u =>
        if u.user_id = uid then { u with checks_balance := u.checks_balance - 1 } else u,
      checks := db.checks ++ [newCheck cid uid] }

/-- `add_to_queue` lifted to the database state: the second, separate
transaction of admission (its own `async_session_maker()` session in
app/services/queue_service.py). -/
def add_to_queue_db (db : DB) (cid : Nat) : DB × Nat :=
  let r := add_to_queue db.checks cid
  ({ db with checks := r.fst }, r.snd)

/-- Outcome of `POST /check/initiate`. -/
structure InitiateResult where
  db : DB
  http402 : Bool
  queue_position : Option Nat
deriving DecidableEq, Repr

/-- `initiate_check` (app/api/router.py lines 63-115). A missing user is
created with balance 0 inside the request session (non-admin initial balance),
so the 402 branch raises before any commit and leaves the state unchanged.
Otherwise the first transaction commits the decrement and the insert, and
`add_to_queue` then assigns the queue position in its own transaction. -/
def initiate_check (db : DB) (uid : Int) (cid : Nat) : InitiateResult :=
  let balance :=
    match findUser db.users uid with
    | some u => u.checks_balance
    | none => 0
  if balance ≤ 0 then { db := db, http402 := true, queue_position := none }
  else
    let db1 := initiate_check_commit1 db uid cid
    let r := add_to_queue_db db1 cid
    { db := r.fst, http402 := false, queue_position := some r.snd }

/-- The commit sequence of a successful admission: insert-and-decrement first,
position assignment second. -/
def initiate_check_commits (uid : Int) (cid : Nat) : List (DB → DB) :=
  [fun db => initiate_check_commit1 db uid cid,
   fun db => (add_to_queue_db db cid).fst]

/-- One fresh user with one credit and an empty queue. -/
def admissionDB : DB :=
  { users := [{ user_id := 7, checks_balance := 1 }], checks := []
    non_mutual_users := [], session_is_valid := true, refund_log := [] }

/-- C4 counterexample. After the first commit of admission — a reachable
post-crash state — the job row exists and the credit is already deducted, but
`queue_position` is still null: the position assignment is not part of the
transaction that inserts the job and decrements the credit. -/
theorem initiate_check_position_in_second_transaction :
    initiate_check_commit1 admissionDB 7 1 ∈
      crashStates (initiate_check_commits 7 1) admissionDB
    ∧ (findCheck (initiate_check_commit1 admissionDB 7 1).checks 1).map Check.queue_position
        = some none
    ∧ (findUser (initiate_check_commit1 admissionDB 7 1).users 7).map User.checks_balance
        = some 0 := by
  refine ⟨?_, by decide, by decide⟩
  show _ ∈ List.scanl _ admissionDB _
  simp [initiate_check_commits, List.scanl]

/-- Keyed-update lookup for user rows. -/
theorem findUser_map_update (users : List User) (uid : Int) (f : User → User)
    (hid : ∀ a, (f a).user_id = a.user_id) :
    (users.map fun a => if a.user_id = uid then f a else a).find? (fun a => a.user_id == uid)
      = (users.find? fun a => a.user_id == uid).map f := by
  apply find?_map_keyed
  · intro a ha
    have : a.user_id = uid := by simpa using ha
    rw [if_pos this]
  · intro a ha
    have : ¬ a.user_id = uid := by simpa using ha
    rw [if_neg this]
  · intro a
    simp [hid]

/-- Keyed-update lookup for check rows. -/
theorem findCheck_map_update (checks : List Check) (cid : Nat) (f : Check → Check)
    (hid : ∀ a, (f a).check_id = a.check_id) :
    (checks.map fun a => if a.check_id = cid then f a else a).find? (fun a => a.check_id == cid)
      = (checks.find? fun a => a.check_id == cid).map f := by
  apply find?_map_keyed
  · intro a ha
    have : a.check_id = cid := by simpa using ha
    rw [if_pos this]
  · intro a ha
    have : ¬ a.check_id = cid := by simpa using ha
    rw [if_neg this]
  · intro a
    simp [hid]

/-- The inserted row has no position yet, so it does not change the maximum
active position the second transaction reads. -/
theorem maxQueuePosition_append_newCheck (checks : List Check) (cid : Nat) (uid : Int) :
    maxQueuePosition (checks ++ [newCheck cid uid]) = maxQueuePosition checks := by
  unfold maxQueuePosition activePositions
  rw [List.filterMap_append]
  simp [activeEntry, newCheck, isActiveStatus]

/-- C4 amended. On admission with a positive balance, the assigned position
equals max(position over PENDING/PROCESSING rows) + 1 (0 when there are none),
and the new row carries it in the final state with the balance decremented by
one; but the assignment happens in a second transaction after the commit that
inserts the row and decrements the balance, so the state after the first
commit alone has the row with a null position. -/
theorem initiate_check_admission (db : DB) (uid : Int) (cid : Nat) (u : User)
    (hu : findUser db.users uid = some u) (hbal : 0 < u.checks_balance)
    (hfresh : findCheck db.checks cid = none) :
    (initiate_check db uid cid).http402 = false
    ∧ (initiate_check db uid cid).queue_position = some (maxQueuePosition db.checks + 1)
    ∧ findCheck (initiate_check db uid cid).db.checks cid
        = some { newCheck cid uid with queue_position := some (maxQueuePosition db.checks + 1) }
    ∧ (findUser (initiate_check db uid cid).db.users uid).map User.checks_balance
        = some (u.checks_balance - 1)
    ∧ (findCheck (initiate_check_commit1 db uid cid).checks cid).map Check.queue_position
        = some none
    ∧ (findUser (initiate_check_commit1 db uid cid).users uid).map User.checks_balance
        = some (u.checks_balance - 1) := by
  have hrun : initiate_check db uid cid =
      { db := (add_to_queue_db (initiate_check_commit1 db uid cid) cid).fst
        http402 := false
        queue_position := some (add_to_queue_db (initiate_check_commit1 db uid cid) cid).snd } := by
    unfold initiate_check
    rw [hu]
    rw [if_neg (by omega : ¬ u.checks_balance ≤ 0)]
  have hmax : maxQueuePosition (initiate_check_commit1 db uid cid).checks
      = maxQueuePosition db.checks := by
    show maxQueuePosition (db.checks ++ [newCheck cid uid]) = _
    exact maxQueuePosition_append_newCheck db.checks cid uid
  have hfind1 : findCheck (initiate_check_commit1 db uid cid).checks cid
      = some (newCheck cid uid) := by
    show findCheck (db.checks ++ [newCheck cid uid]) cid = _
    unfold findCheck at hfresh ⊢
    rw [List.find?_append, hfresh]
    simp [newCheck]
  have huser1 : (findUser (initiate_check_commit1 db uid cid).users uid).map User.checks_balance
      = some (u.checks_balance - 1) := by
    show (findUser (db.users.map _) uid).map User.checks_balance = _
    unfold findUser
    rw [findUser_map_update db.users uid
      (fun a => { a with checks_balance := a.checks_balance - 1 }) (fun a => rfl)]
    unfold findUser at hu
    rw [hu]
    rfl
  have hfind2 : findCheck (add_to_queue_db (initiate_check_commit1 db uid cid) cid).fst.checks cid
      = some { newCheck cid uid with
                 queue_position := some (maxQueuePosition db.checks + 1) } := by
    have hstep : ∀ (l : List Check) (v : Nat),
        (l.map (assignPosition cid v)).find? (fun a => a.check_id == cid)
          = (l.find? fun a => a.check_id == cid).map
              (fun a => { a with queue_position := some v }) := by
      intro l v
      have hform : l.map (assignPosition cid v)
          = l.map fun a =>
              if a.check_id = cid then { a with queue_position := some v } else a := rfl
      rw [hform]
      exact findCheck_map_update l cid (fun a => { a with queue_position := some v })
        (fun a => rfl)
    show findCheck ((initiate_check_commit1 db uid cid).checks.map
      (assignPosition cid (maxQueuePosition (initiate_check_commit1 db uid cid).checks + 1))) cid
      = _
    unfold findCheck
    rw [hstep]
    unfold findCheck at hfind1
    rw [hfind1, hmax]
    rfl
  refine ⟨by rw [hrun], ?_, ?_, ?_, ?_, huser1⟩
  · rw [hrun]
    show some (maxQueuePosition (initiate_check_commit1 db uid cid).checks + 1) = _
    rw [hmax]
  · rw [hrun]
    exact hfind2
  · rw [hrun]
    show (findUser (initiate_check_commit1 db uid cid).users uid).map User.checks_balance = _
    exact huser1
  · rw [hfind1]
    rfl

/-- Witness for `initiate_check_admission` on `admissionDB`. -/
theorem initiate_check_admission_witness :
    (initiate_check admissionDB 7 1).http402 = false
    ∧ (initiate_check admissionDB 7 1).queue_position
        = some (maxQueuePosition admissionDB.checks + 1)
    ∧ findCheck (initiate_check admissionDB 7 1).db.checks 1
        = some { newCheck 1 7 with queue_position := some (maxQueuePosition admissionDB.checks + 1) }
    ∧ (findUser (initiate_check admissionDB 7 1).db.users 7).map User.checks_balance
        = some (1 - 1)
    ∧ (findCheck (initiate_check_commit1 admissionDB 7 1).checks 1).map Check.queue_position
        = some none
    ∧ (findUser (initiate_check_commit1 admissionDB 7 1).users 7).map User.checks_balance
        = some (1 - 1) :=
  initiate_check_admission admissionDB 7 1 { user_id := 7, checks_balance := 1 }
    (by decide) (by decide) (by decide)

end UnfollowerBot

namespace UnfollowerBot

/-! ## Payment state machine (claims C2 and C10) -/

/-- `PaymentStatusEnum` from app/models/models.py. -/
inductive PaymentStatusEnum where
  | pending
  | completed
  | failed
  | cancelled
deriving DecidableEq, Repr

/-- The string value of the enum member (`status.value` in the code). -/
def PaymentStatusEnum.value : PaymentStatusEnum → String
  | .pending => "pending"
  | .completed => "completed"
  | .failed => "failed"
  | .cancelled => "cancelled"

/-- `PaymentEventTypeEnum` from app/models/models.py. -/
inductive PaymentEventTypeEnum where
  | created
  | pre_checkout
  | completed
  | failed
  | cancelled
  | retry_scheduled
  | retry_executed
deriving DecidableEq, Repr

/-- A row of the `payments` table, restricted to the columns the claims
mention. `amount` carries the integer Stars amount the code compares with
`int(payment.amount) != total_amount`. -/
structure Payment where
  payment_id : Nat
  user_id : Int
  amount : Int
  checks_count : Int
  status : PaymentStatusEnum
  telegram_payment_charge_id : Option String
  completed_at : Option Int
deriving DecidableEq, Repr

/-- A row of the append-only `payment_events` audit table (the JSON `details`
column is omitted: no claim inspects it). -/
structure PaymentEvent where
  payment_id : Nat
  event_type : PaymentEventTypeEnum
  status_before : Option String
  status_after : Option String
  error_message : Option String
deriving DecidableEq, Repr

/-- The database state seen by the payment service. -/
structure PayDB where
  payments : List Payment
  users : List User
  payment_events : List PaymentEvent
deriving DecidableEq, Repr

/-- The exception classes `complete_telegram_stars_payment` can raise. -/
inductive PaymentError where
  | paymentNotFound
  | paymentAlreadyCompleted
  | paymentAmountMismatch
  | userNotFound
deriving DecidableEq, Repr

/-- `select(Payment).where(Payment.payment_id == payment_id)`. -/
def findPayment (l : List Payment) (pid : Nat) : Option Payment :=
  l.find? fun p => p.payment_id == pid

/-- The error message logged on an amount mismatch. -/
def mismatchMessage (expected received : Int) : String :=
  "Amount mismatch: expected " ++ toString expected ++ ", received " ++ toString received

/-- The settled form of a payment row: what the success branch writes. -/
def completedPayment (now : Int) (ch : String) (p : Payment) : Payment :=
  { p with status := .completed, telegram_payment_charge_id := some ch
           completed_at := some now }

/-- The audit event appended by the success branch. -/
def completionEvent (pid : Nat) (before : PaymentStatusEnum) : PaymentEvent :=
  { payment_id := pid, event_type := .completed, status_before := some before.value
    status_after := some PaymentStatusEnum.completed.value, error_message := none }

/-- The audit event appended by the amount-mismatch branch. -/
def mismatchEvent (pid : Nat) (before : PaymentStatusEnum) (expected received : Int) :
    PaymentEvent :=
  { payment_id := pid, event_type := .failed, status_before := some before.value
    status_after := some PaymentStatusEnum.failed.value
    error_message := some (mismatchMessage expected received) }

/-- `complete_telegram_stars_payment` (app/services/payment_service.py lines
264-387). Returns the committed state and the raised exception class, if any:

* unknown payment → `PaymentNotFoundError`, nothing committed;
* already COMPLETED with the same charge id → idempotent success, nothing
  committed (the stored payment and user are merely re-read);
* already COMPLETED with a different charge id → `PaymentAlreadyCompletedError`,
  nothing committed;
* amount mismatch → one commit writing the FAILED status and the failed audit
  event, then `PaymentAmountMismatchError`;
* unknown user → `UserNotFoundError`, nothing committed (the session is
  discarded before any write);
* otherwise one commit writing the COMPLETED payment row, the incremented
  balance and the completed audit event. -/
def complete_telegram_stars_payment (now : Int) (db : PayDB) (payment_id : Nat)
    (telegram_payment_charge_id : String) (total_amount : Int) :
    PayDB × Option PaymentError :=
  match findPayment db.payments payment_id with
  | none => (db, some .paymentNotFound)
  | some payment =>
    if payment.status = .completed then
      if payment.telegram_payment_charge_id = some telegram_payment_charge_id then
        (db, none)
      else
        (db, some .paymentAlreadyCompleted)
    else if payment.amount ≠ total_amount then
      ({ db with
          payments := db.payments.map fun p =>
            if p.payment_id = payment_id then { p with status := .failed } else p,
          payment_events := db.payment_events ++
            [mismatchEvent payment_id payment.status payment.amount total_amount] },
       some .paymentAmountMismatch)
    else
      match findUser db.users payment.user_id with
      | none => (db, some .userNotFound)
      | some _ =>
        ({ db with
            payments := db.payments.map fun p =>
              if p.payment_id = payment_id then
                completedPayment now telegram_payment_charge_id p
              else p,
            users := db.users.map fun u =>
              if u.user_id = payment.user_id then
                { u with checks_balance := u.checks_balance + payment.checks_count }
              else u,
            payment_events := db.payment_events ++
              [completionEvent payment_id payment.status] },
         none)

/-- k successive invocations of `complete_telegram_stars_payment` with
identical arguments, each starting from the state the previous one left. -/
def completeIterate (now : Int) (pid : Nat) (ch : String) (amt : Int) :
    Nat → PayDB → PayDB
  | 0, db => db
  | k + 1, db =>
    completeIterate now pid ch amt k (complete_telegram_stars_payment now db pid ch amt).fst

/-- Keyed-update lookup for payment rows. -/
theorem findPayment_map_update (payments : List Payment) (pid : Nat) (f : Payment → Payment)
    (hid : ∀ a, (f a).payment_id = a.payment_id) :
    (payments.map fun a => if a.payment_id = pid then f a else a).find?
        (fun a => a.payment_id == pid)
      = (payments.find? fun a => a.payment_id == pid).map f := by
  apply find?_map_keyed
  · intro a ha
    have : a.payment_id = pid := by simpa using ha
    rw [if_pos this]
  · intro a ha
    have : ¬ a.payment_id = pid := by simpa using ha
    rw [if_neg this]
  · intro a
    simp [hid]

/-- A `complete` call on a payment already COMPLETED under the same charge id
takes the idempotency branch: success, no commit, regardless of the amount. -/
theorem complete_replay_noop (now : Int) (db : PayDB) (pid : Nat) (ch : String)
    (amt : Int) (q : Payment)
    (hq : findPayment db.payments pid = some q) (hqs : q.status = .completed)
    (hqc : q.telegram_payment_charge_id = some ch) :
    complete_telegram_stars_payment now db pid ch amt = (db, none) := by
  unfold complete_telegram_stars_payment
  simp only [hq]
  rw [if_pos hqs, hqc, if_pos rfl]

/-- C2. For a pending payment with the expected amount and an existing user,
the first `complete` call succeeds, settles the payment with the given charge
id and adds `checks_count` to the balance; every further call with identical
arguments (k ≥ 1 calls in total) returns the same state, so the credit is
added exactly once. A call on a payment already completed with a different
charge id raises `PaymentAlreadyCompletedError` and changes nothing. -/
theorem complete_stars_idempotent (now : Int) (db : PayDB) (pid : Nat) (ch : String)
    (amt : Int) :
    (∀ p u, findPayment db.payments pid = some p → p.status = .pending → p.amount = amt →
      findUser db.users p.user_id = some u →
      ((complete_telegram_stars_payment now db pid ch amt).snd = none
       ∧ findPayment (complete_telegram_stars_payment now db pid ch amt).fst.payments pid
           = some (completedPayment now ch p)
       ∧ (findUser (complete_telegram_stars_payment now db pid ch amt).fst.users p.user_id).map
            User.checks_balance = some (u.checks_balance + p.checks_count)
       ∧ ∀ k : Nat, completeIterate now pid ch amt (k + 1) db
           = (complete_telegram_stars_payment now db pid ch amt).fst))
    ∧ (∀ p c, findPayment db.payments pid = some p → p.status = .completed →
        p.telegram_payment_charge_id = some c → c ≠ ch →
        complete_telegram_stars_payment now db pid ch amt
          = (db, some .paymentAlreadyCompleted)) := by
  constructor
  · intro p u hp hs hamt huser
    have hns : ¬ p.status = PaymentStatusEnum.completed := by
      rw [hs]
      intro h
      cases h
    have hna : ¬ p.amount ≠ amt := by
      rw [hamt]
      exact fun h => h rfl
    have hrun : complete_telegram_stars_payment now db pid ch amt =
        ({ db with
            payments := db.payments.map fun q =>
              if q.payment_id = pid then completedPayment now ch q else q,
            users := db.users.map fun w =>
              if w.user_id = p.user_id then
                { w with checks_balance := w.checks_balance + p.checks_count }
              else w,
            payment_events := db.payment_events ++ [completionEvent pid p.status] },
         none) := by
      unfold complete_telegram_stars_payment
      simp only [hp]
      rw [if_neg hns, if_neg hna]
      simp only [huser]
    have hfindp : findPayment (complete_telegram_stars_payment now db pid ch amt).fst.payments
        pid = some (completedPayment now ch p) := by
      rw [hrun]
      show findPayment (db.payments.map _) pid = _
      unfold findPayment
      rw [findPayment_map_update db.payments pid (completedPayment now ch) (fun a => rfl)]
      unfold findPayment at hp
      rw [hp]
      rfl
    have hfindu : (findUser (complete_telegram_stars_payment now db pid ch amt).fst.users
        p.user_id).map User.checks_balance = some (u.checks_balance + p.checks_count) := by
      rw [hrun]
      show (findUser (db.users.map _) p.user_id).map User.checks_balance = _
      unfold findUser
      rw [findUser_map_update db.users p.user_id
        (fun w => { w with checks_balance := w.checks_balance + p.checks_count })
        (fun a => rfl)]
      unfold findUser at huser
      rw [huser]
      rfl
    refine ⟨by rw [hrun], hfindp, hfindu, ?_⟩
    · -- every further identical call is a no-op on the settled state
      have hfix := complete_replay_noop now
        (complete_telegram_stars_payment now db pid ch amt).fst pid ch amt
        (completedPayment now ch p) hfindp rfl rfl
      have hstable : ∀ k : Nat,
          completeIterate now pid ch amt k (complete_telegram_stars_payment now db pid ch
            amt).fst = (complete_telegram_stars_payment now db pid ch amt).fst := by
        intro k
        induction k with
        | zero => rfl
        | succ k ihk =>
          show completeIterate now pid ch amt k
            (complete_telegram_stars_payment now
              (complete_telegram_stars_payment now db pid ch amt).fst pid ch amt).fst = _
          rw [hfix]
          exact ihk
      intro k
      show completeIterate now pid ch amt k (complete_telegram_stars_payment now db pid ch
        amt).fst = _
      exact hstable k
  · intro p c hp hs hch hne
    unfold complete_telegram_stars_payment
    simp only [hp]
    rw [if_pos hs, hch]
    rw [if_neg (show ¬ (some c = some ch) from fun h => hne (Option.some_injective _ h))]

/-- A pending Stars payment of 100 XTR for 10 checks. -/
def pendingStars : Payment :=
  { payment_id := 4, user_id := 9, amount := 100, checks_count := 10
    status := .pending, telegram_payment_charge_id := none, completed_at := none }

/-- Payment table state before settlement. -/
def starsDB : PayDB :=
  { payments := [pendingStars]
    users := [{ user_id := 9, checks_balance := 2 }], payment_events := [] }

/-- The same payment already settled under charge id ch-0. -/
def settledStars : Payment :=
  { pendingStars with
    status := .completed,
    telegram_payment_charge_id := some "ch-0", completed_at := some 50 }

/-- Payment table state after settlement. -/
def settledDB : PayDB :=
  { payments := [settledStars]
    users := [{ user_id := 9, checks_balance := 12 }], payment_events := [] }

/-- Witness for `complete_stars_idempotent` at concrete states: a first
settlement succeeds, a second identical call is the identity, and a call with
a different charge id on the settled state fails without touching it. -/
theorem complete_stars_idempotent_witness :
    ((complete_telegram_stars_payment 50 starsDB 4 "ch-0" 100).snd = none
     ∧ ∀ k : Nat, completeIterate 50 4 "ch-0" 100 (k + 1) starsDB
         = (complete_telegram_stars_payment 50 starsDB 4 "ch-0" 100).fst)
    ∧ complete_telegram_stars_payment 50 settledDB 4 "ch-1" 100
        = (settledDB, some .paymentAlreadyCompleted) :=
  ⟨⟨((complete_stars_idempotent 50 starsDB 4 "ch-0" 100).1 pendingStars
      { user_id := 9, checks_balance := 2 } (by decide) (by decide) (by decide) (by decide)).1,
    ((complete_stars_idempotent 50 starsDB 4 "ch-0" 100).1 pendingStars
      { user_id := 9, checks_balance := 2 } (by decide) (by decide) (by decide)
      (by decide)).2.2.2⟩,
   (complete_stars_idempotent 50 settledDB 4 "ch-1" 100).2 settledStars "ch-0"
     (by decide) (by decide) (by decide) (by decide)⟩

/-- C10. A replay of `complete` on a payment already completed with the given
charge id succeeds without checking the amount: for every `amt`, including
ones different from the stored amount, it returns the state unchanged and no
error. -/
theorem complete_stars_replay_ignores_amount (now : Int) (db : PayDB) (pid : Nat)
    (ch : String) (p : Payment)
    (hp : findPayment db.payments pid = some p) (hs : p.status = .completed)
    (hc : p.telegram_payment_charge_id = some ch) :
    ∀ amt : Int, complete_telegram_stars_payment now db pid ch amt = (db, none) := by
  intro amt
  exact complete_replay_noop now db pid ch amt p hp hs hc

/-- Witness for `complete_stars_replay_ignores_amount`: replaying the settled
payment with amount 999 (stored amount 100) still succeeds with no change. -/
theorem complete_stars_replay_ignores_amount_witness :
    complete_telegram_stars_payment 50 settledDB 4 "ch-0" 999 = (settledDB, none) :=
  complete_stars_replay_ignores_amount 50 settledDB 4 "ch-0" settledStars
    (by decide) (by decide) (by decide) 999

end UnfollowerBot

namespace UnfollowerBot

/-! ## The non-mutual computation and the analysis pipeline (claims C5, C6) -/

/-- `InstagramUser` from app/services/instagram_scraper.py. -/
structure InstagramUser where
  user_id : String
  username : String
  full_name : Option String
  avatar_url : Option String
  is_private : Bool
  is_verified : Bool
deriving DecidableEq, Repr

/-- The set difference computed by `get_non_mutual_followers`
(app/services/instagram_scraper.py lines 500-501):
`follower_ids = {f.user_id for f in followers}` and
`non_mutual = [f for f in following if f.user_id not in follower_ids]`. -/
def nonMutualOf (followers following : List InstagramUser) : List InstagramUser :=
  let follower_ids := followers.map InstagramUser.user_id
  following.filter fun f => decide (f.user_id ∉ follower_ids)

/-- C6. The computed non-mutual list contains exactly the entries of the
following list whose user id does not occur among the follower user ids. -/
theorem non_mutual_membership (followers following : List InstagramUser)
    (u : InstagramUser) :
    u ∈ nonMutualOf followers following ↔
      u ∈ following ∧ u.user_id ∉ followers.map InstagramUser.user_id := by
  simp [nonMutualOf, List.mem_filter]

/-- `mark_session_invalid` (app/services/session_service.py lines 209-239)
restricted to what the pipeline observes: the active session row loses
`is_valid`. -/
def mark_session_invalid (db : DB) : DB :=
  { db with session_is_valid := false }

/-- `save_non_mutual_users` (app/services/check_service.py lines 114-136): one
transaction inserting a `NonMutualUser` row per computed entry. -/
def save_non_mutual_users (db : DB) (cid : Nat) (non_mutual : List InstagramUser) : DB :=
  { db with
      non_mutual_users := db.non_mutual_users ++ non_mutual.map fun u =>
        { check_id := cid, target_user_id := some u.user_id, target_username := u.username
          target_full_name := u.full_name, target_avatar_url := u.avatar_url
          user_follows_target := true, target_follows_user := false, is_mutual := false } }

/-- `update_check_status(check_id, progress=p)`: a progress-only write. -/
def update_check_progress (db : DB) (cid : Nat) (p : Int) : DB :=
  { db with
      checks := db.checks.map fun c =>
        if c.check_id = cid then { c with progress := p } else c }

/-- The completion write of `process_check` (status COMPLETED, progress 100,
summary counts, `completed_at`; the xlsx path and size columns are not
modelled). -/
def update_check_status_completed (db : DB) (cid : Nat) (now : Int)
    (followersN followingN nonMutualN : Nat) : DB :=
  { db with
      checks := db.checks.map fun c =>
        if c.check_id = cid then
          { c with
            status := .completed, progress := 100,
            total_subscriptions := some (followingN : Int),
            total_followers := some (followersN : Int),
            total_non_mutual := some (nonMutualN : Int), completed_at := some now }
        else c }

/-- The user-visible message of the empty-results anomaly branch. -/
def emptyResultsMessage : String :=
  "Не удалось получить данные Instagram. Попробуйте позже или обратитесь к менеджеру."

/-- The user-visible message of the empty-followers anomaly branch. -/
def emptyFollowersMessage : String :=
  "Ошибка при получении списка подписчиков. Попробуйте позже."

/-- The refund reason logged by the empty-results branch. -/
def emptyResultsReason : String :=
  "EmptyResults: 0 followers and 0 following"

/-- The refund reason logged by the empty-followers branch. -/
def emptyFollowersReason (followingCount : Nat) : String :=
  "EmptyFollowers: 0 followers, " ++ toString followingCount ++ " following"

/-- The part of `process_check` (app/services/check_service.py lines 199-297)
that runs once the fetch has returned `followers` and `following` (the
non-mutual list is the scraper's set difference):

* both lists empty → mark the session invalid, write FAILED with the
  empty-results message, refund (notifications carry no database writes);
* no followers but some following → write FAILED with the empty-followers
  message and refund, without touching the session;
* otherwise → progress writes, the NonMutualUser inserts, and the completion
  write. -/
def process_check_fetched (now : Int) (db : DB) (cid : Nat) (uid : Int)
    (followers following : List InstagramUser) : DB :=
  let non_mutual := nonMutualOf followers following
  if followers.length = 0 ∧ following.length = 0 then
    let db1 := mark_session_invalid db
    let db2 := update_check_status_failed db1 cid emptyResultsMessage
    (refund_check_balance db2 uid emptyResultsReason).fst
  else if followers.length = 0 ∧ following.length > 0 then
    let db1 := update_check_status_failed db cid emptyFollowersMessage
    (refund_check_balance db1 uid (emptyFollowersReason following.length)).fst
  else
    let db1 := update_check_progress db cid 70
    let db2 := save_non_mutual_users db1 cid non_mutual
    let db3 := update_check_progress db2 cid 80
    let db4 := update_check_progress db3 cid 95
    update_check_status_completed db4 cid now followers.length following.length
      non_mutual.length

/-- The combined effect of a FAILED status write followed by a refund. -/
theorem fail_refund_effects (db : DB) (cid : Nat) (uid : Int) (msg reason : String)
    (c : Check) (u : User)
    (hc : findCheck db.checks cid = some c) (hu : findUser db.users uid = some u) :
    findCheck (refund_check_balance (update_check_status_failed db cid msg) uid
        reason).fst.checks cid
      = some { c with status := .failed, error_message := some msg }
    ∧ findUser (refund_check_balance (update_check_status_failed db cid msg) uid
        reason).fst.users uid
      = some { u with checks_balance := u.checks_balance + 1 }
    ∧ (refund_check_balance (update_check_status_failed db cid msg) uid
        reason).fst.refund_log = db.refund_log ++ [(uid, reason)]
    ∧ (refund_check_balance (update_check_status_failed db cid msg) uid
        reason).fst.non_mutual_users = db.non_mutual_users
    ∧ (refund_check_balance (update_check_status_failed db cid msg) uid
        reason).fst.session_is_valid = db.session_is_valid := by
  have hu1 : findUser (update_check_status_failed db cid msg).users uid = some u := hu
  refine ⟨?_, findUser_refund _ _ _ _ hu1, ?_, ?_, ?_⟩
  · have hchecks : (refund_check_balance (update_check_status_failed db cid msg) uid
        reason).fst.checks = (update_check_status_failed db cid msg).checks := by
      unfold refund_check_balance
      rw [hu1]
    rw [hchecks, findCheck_update_failed, hc]
    rfl
  · unfold refund_check_balance
    rw [hu1]
    rfl
  · unfold refund_check_balance
    rw [hu1]
    rfl
  · unfold refund_check_balance
    rw [hu1]
    rfl

/-- C5. With an empty followers list: if the following list is also empty,
the pipeline writes no NonMutualUser rows, fails the job, refunds the credit
(logging the EmptyResults reason) and invalidates the session; if the
following list is non-empty, it fails the job with the EmptyFollowers message
and reason, refunds, leaves the session flag untouched and writes no rows. -/
theorem process_anomaly_guard (now : Int) (db : DB) (cid : Nat) (uid : Int)
    (followers following : List InstagramUser) (c : Check) (u : User)
    (hc : findCheck db.checks cid = some c) (hu : findUser db.users uid = some u)
    (hf : followers = []) :
    (following = [] →
      ((process_check_fetched now db cid uid followers following).non_mutual_users
          = db.non_mutual_users
       ∧ (findCheck (process_check_fetched now db cid uid followers following).checks cid).map
           Check.status = some .failed
       ∧ (findUser (process_check_fetched now db cid uid followers following).users uid).map
           User.checks_balance = some (u.checks_balance + 1)
       ∧ (process_check_fetched now db cid uid followers following).refund_log
           = db.refund_log ++ [(uid, emptyResultsReason)]
       ∧ (process_check_fetched now db cid uid followers following).session_is_valid = false))
    ∧ (following ≠ [] →
      ((findCheck (process_check_fetched now db cid uid followers following).checks cid).map
           Check.status = some .failed
       ∧ (findCheck (process_check_fetched now db cid uid followers following).checks cid).map
           Check.error_message = some (some emptyFollowersMessage)
       ∧ (findUser (process_check_fetched now db cid uid followers following).users uid).map
           User.checks_balance = some (u.checks_balance + 1)
       ∧ (process_check_fetched now db cid uid followers following).refund_log
           = db.refund_log ++ [(uid, emptyFollowersReason following.length)]
       ∧ (process_check_fetched now db cid uid followers following).session_is_valid
           = db.session_is_valid
       ∧ (process_check_fetched now db cid uid followers following).non_mutual_users
           = db.non_mutual_users)) := by
  subst hf
  constructor
  · intro hg
    subst hg
    have hrun : process_check_fetched now db cid uid [] [] =
        (refund_check_balance (update_check_status_failed (mark_session_invalid db) cid
          emptyResultsMessage) uid emptyResultsReason).fst := by
      unfold process_check_fetched
      rw [if_pos ⟨rfl, rfl⟩]
    have hc' : findCheck (mark_session_invalid db).checks cid = some c := hc
    have hu' : findUser (mark_session_invalid db).users uid = some u := hu
    have heff := fail_refund_effects (mark_session_invalid db) cid uid emptyResultsMessage
      emptyResultsReason c u hc' hu'
    rw [hrun]
    refine ⟨?_, ?_, ?_, ?_, ?_⟩
    · rw [heff.2.2.2.1]
      rfl
    · rw [heff.1]
      rfl
    · rw [heff.2.1]
      rfl
    · rw [heff.2.2.1]
      rfl
    · rw [heff.2.2.2.2]
      rfl
  · intro hne
    have hpos : 0 < following.length := List.length_pos.mpr hne
    have hrun : process_check_fetched now db cid uid [] following =
        (refund_check_balance (update_check_status_failed db cid emptyFollowersMessage) uid
          (emptyFollowersReason following.length)).fst := by
      unfold process_check_fetched
      rw [if_neg (fun h => hne (List.length_eq_zero.mp h.2)), if_pos ⟨rfl, hpos⟩]
    have heff := fail_refund_effects db cid uid emptyFollowersMessage
      (emptyFollowersReason following.length) c u hc hu
    rw [hrun]
    refine ⟨?_, ?_, ?_, heff.2.2.1, heff.2.2.2.2, heff.2.2.2.1⟩
    · rw [heff.1]
      rfl
    · rw [heff.1]
      rfl
    · rw [heff.2.1]
      rfl

/-- A sample Instagram account appearing only in the following list. -/
def igAlice : InstagramUser :=
  { user_id := "101", username := "alice", full_name := none, avatar_url := none
    is_private := false, is_verified := false }

/-- Witness for `process_anomaly_guard` on `refundDB`: both anomaly branches
evaluated at concrete fetch results. -/
theorem process_anomaly_guard_witness :
    ((process_check_fetched 0 refundDB 3 7 [] []).non_mutual_users = refundDB.non_mutual_users
     ∧ (findCheck (process_check_fetched 0 refundDB 3 7 [] []).checks 3).map Check.status
         = some .failed
     ∧ (findUser (process_check_fetched 0 refundDB 3 7 [] []).users 7).map User.checks_balance
         = some (0 + 1)
     ∧ (process_check_fetched 0 refundDB 3 7 [] []).refund_log
         = refundDB.refund_log ++ [(7, emptyResultsReason)]
     ∧ (process_check_fetched 0 refundDB 3 7 [] []).session_is_valid = false)
    ∧ ((findCheck (process_check_fetched 0 refundDB 3 7 [] [igAlice]).checks 3).map Check.status
         = some .failed
       ∧ (findCheck (process_check_fetched 0 refundDB 3 7 [] [igAlice]).checks 3).map
           Check.error_message = some (some emptyFollowersMessage)
       ∧ (findUser (process_check_fetched 0 refundDB 3 7 [] [igAlice]).users 7).map
           User.checks_balance = some (0 + 1)
       ∧ (process_check_fetched 0 refundDB 3 7 [] [igAlice]).refund_log
           = refundDB.refund_log ++ [(7, emptyFollowersReason [igAlice].length)]
       ∧ (process_check_fetched 0 refundDB 3 7 [] [igAlice]).session_is_valid
           = refundDB.session_is_valid
       ∧ (process_check_fetched 0 refundDB 3 7 [] [igAlice]).non_mutual_users
           = refundDB.non_mutual_users) :=
  ⟨(process_anomaly_guard 0 refundDB 3 7 [] [] { staleCheckRow with check_id := 3 }
      { user_id := 7, checks_balance := 0 } (by decide) (by decide) rfl).1 rfl,
   (process_anomaly_guard 0 refundDB 3 7 [] [igAlice] { staleCheckRow with check_id := 3 }
      { user_id := 7, checks_balance := 0 } (by decide) (by decide) rfl).2 (by decide)⟩

end UnfollowerBot

namespace UnfollowerBot

/-! ## Upstream request classification (claim C9) -/

/-- What one attempt of `_make_request` observes: an HTTP response with a
status code, or a transport-level exception from the HTTP client. -/
inductive HTTPOutcome where
  | status (code : Nat)
  | transportError
deriving DecidableEq, Repr

/-- How `_make_request` terminates: parsed JSON, one of the typed exceptions,
or the final `InstagramScraperError` after the retry cap. -/
inductive RequestResult where
  | ok
  | sessionExpired
  | rateLimited
  | userNotFound
  | failedAfterRetries
deriving DecidableEq, Repr

/-- The attempt loop of `_make_request` (app/services/instagram_scraper.py
lines 156-216), with `responses i` the outcome of attempt `i`:

* 401 raises `SessionExpiredError` immediately (re-raised past the retry
  handler), 429 `RateLimitError`, 404 `UserNotFoundError`;
* any other status below 400 returns the parsed body;
* `raise_for_status` on the remaining codes and transport errors are caught
  and retried until the attempt budget is exhausted, after which the generic
  `InstagramScraperError` is raised. -/
def makeRequestLoop (responses : Nat → HTTPOutcome) : Nat → Nat → RequestResult
  | 0, _ => .failedAfterRetries
  | fuel + 1, attempt =>
    match responses attempt with
    | .status c =>
      if c = 401 then .sessionExpired
      else if c = 429 then .rateLimited
      else if c = 404 then .userNotFound
      else if c < 400 then .ok
      else makeRequestLoop responses fuel (attempt + 1)
    | .transportError => makeRequestLoop responses fuel (attempt + 1)

/-- `_make_request` with its `for attempt in range(self.max_retries)` loop. -/
def make_request (max_retries : Nat) (responses : Nat → HTTPOutcome) : RequestResult :=
  makeRequestLoop responses max_retries 0

/-- A 5xx response or a transport error: the retryable class. -/
def is5xxOrTransport : HTTPOutcome → Bool
  | .transportError => true
  | .status c => decide (500 ≤ c) && decide (c ≤ 599)

/-- Exhausting the budget on retryable outcomes alone ends in the generic
failure. -/
theorem makeRequestLoop_all_retryable (responses : Nat → HTTPOutcome) :
    ∀ (fuel attempt : Nat),
      (∀ i, attempt ≤ i → i < attempt + fuel → is5xxOrTransport (responses i) = true) →
      makeRequestLoop responses fuel attempt = .failedAfterRetries := by
  intro fuel
  induction fuel with
  | zero => intro attempt _; rfl
  | succ fuel ih =>
    intro attempt h
    have h0 : is5xxOrTransport (responses attempt) = true :=
      h attempt (Nat.le_refl _) (by omega)
    have hrest : ∀ i, attempt + 1 ≤ i → i < attempt + 1 + fuel →
        is5xxOrTransport (responses i) = true := by
      intro i h1 h2
      exact h i (by omega) (by omega)
    cases hresp : responses attempt with
    | transportError =>
      unfold makeRequestLoop
      rw [hresp]
      show makeRequestLoop responses fuel (attempt + 1) = _
      exact ih (attempt + 1) hrest
    | status c =>
      rw [hresp] at h0
      simp only [is5xxOrTransport, Bool.and_eq_true, decide_eq_true_eq] at h0
      unfold makeRequestLoop
      rw [hresp]
      show (if c = 401 then RequestResult.sessionExpired
        else if c = 429 then RequestResult.rateLimited
        else if c = 404 then RequestResult.userNotFound
        else if c < 400 then RequestResult.ok
        else makeRequestLoop responses fuel (attempt + 1)) = RequestResult.failedAfterRetries
      rw [if_neg (by omega : ¬ c = 401), if_neg (by omega : ¬ c = 429),
        if_neg (by omega : ¬ c = 404), if_neg (by omega : ¬ c < 400)]
      exact ih (attempt + 1) hrest

/-- C9. With at least one attempt allowed: a first-attempt 401 yields
`SessionExpiredError` (never retried — the result is fixed whatever the later
responses are), 429 yields `RateLimitError`, 404 yields `UserNotFoundError`;
and when every attempt up to the cap hits a 5xx or a transport error, the
request surfaces the generic `InstagramScraperError`. -/
theorem make_request_classification (max_retries : Nat) (responses : Nat → HTTPOutcome)
    (hcap : 1 ≤ max_retries) :
    (responses 0 = .status 401 → make_request max_retries responses = .sessionExpired)
    ∧ (responses 0 = .status 429 → make_request max_retries responses = .rateLimited)
    ∧ (responses 0 = .status 404 → make_request max_retries responses = .userNotFound)
    ∧ ((∀ i, i < max_retries → is5xxOrTransport (responses i) = true) →
        make_request max_retries responses = .failedAfterRetries) := by
  obtain ⟨fuel, rfl⟩ : ∃ fuel, max_retries = fuel + 1 :=
    ⟨max_retries - 1, by omega⟩
  refine ⟨?_, ?_, ?_, ?_⟩
  · intro h0
    unfold make_request makeRequestLoop
    rw [h0]
    rfl
  · intro h0
    unfold make_request makeRequestLoop
    rw [h0]
    rfl
  · intro h0
    unfold make_request makeRequestLoop
    rw [h0]
    rfl
  · intro hall
    exact makeRequestLoop_all_retryable responses (fuel + 1) 0
      (fun i h1 h2 => hall i (by omega))

/-- Witness for `make_request_classification` at the default cap of 3 and
constant response streams. -/
theorem make_request_classification_witness :
    (make_request 3 (fun _ => .status 401) = .sessionExpired)
    ∧ (make_request 3 (fun _ => .status 429) = .rateLimited)
    ∧ (make_request 3 (fun _ => .status 404) = .userNotFound)
    ∧ (make_request 3 (fun _ => .status 503) = .failedAfterRetries)
    ∧ (make_request 3 (fun _ => .transportError) = .failedAfterRetries) :=
  ⟨(make_request_classification 3 (fun _ => .status 401) (by decide)).1 rfl,
   (make_request_classification 3 (fun _ => .status 429) (by decide)).2.1 rfl,
   (make_request_classification 3 (fun _ => .status 404) (by decide)).2.2.1 rfl,
   (make_request_classification 3 (fun _ => .status 503) (by decide)).2.2.2
     (fun i _ => rfl),
   (make_request_classification 3 (fun _ => .transportError) (by decide)).2.2.2
     (fun i _ => rfl)⟩

end UnfollowerBot

namespace UnfollowerBot

/-! ## External-acquirer callback signature (claim C7) -/

/-- Python `str.upper()` on the ASCII range (hex digests and the signature
fields here are ASCII). -/
def strUpper (s : String) : String :=
  ⟨s.data.map Char.toUpper⟩

/-- Insert a Shp key/value pair into a list sorted by ascending key:
`sorted(shp_params.items())` (keys are unique, so ordering by key suffices). -/
def insertShp (kv : String × String) : List (String × String) → List (String × String)
  | [] => [kv]
  | x :: xs => if x.fst < kv.fst then x :: insertShp kv xs else kv :: x :: xs

/-- Lexicographic sort of the Shp parameters by key. -/
def sortShpParams : List (String × String) → List (String × String)
  | [] => []
  | x :: xs => insertShp x (sortShpParams xs)

/-- `":".join(f"k=v" for sorted items)` from `verify_callback_signature`. -/
def shpJoined (shp_params : List (String × String)) : String :=
  String.intercalate ":" ((sortShpParams shp_params).map fun kv => kv.fst ++ "=" ++ kv.snd)

/-- The signature base string built by `verify_callback_signature`
(app/utils/robokassa.py lines 95-101): `OutSum:InvId:Password2` with the
sorted Shp part appended when non-empty. MerchantLogin is not part of it. -/
def callback_signature_str (out_sum inv_id password_2 : String)
    (shp_params : List (String × String)) : String :=
  let shp_str := shpJoined shp_params
  let base := out_sum ++ ":" ++ inv_id ++ ":" ++ password_2
  if shp_str = "" then base else base ++ ":" ++ shp_str

/-- The signature base string as the spec sentence describes it (spec-side of
the refinement): `MerchantLogin:OutSum:InvId:Password:Shp_k1=v1:…` with the
Shp fields in lexicographic order. -/
def specCallbackSignatureBase (merchant_login out_sum inv_id password : String)
    (shp_params : List (String × String)) : String :=
  let shp_str := shpJoined shp_params
  let base := merchant_login ++ ":" ++ out_sum ++ ":" ++ inv_id ++ ":" ++ password
  if shp_str = "" then base else base ++ ":" ++ shp_str

/-- `verify_callback_signature` (app/utils/robokassa.py lines 76-120).
`md5Hex` stands for `hashlib.md5(...encode()).hexdigest()`: the expected
value is its uppercase form, compared against the uppercased received
signature. -/
def verify_callback_signature (md5Hex : String → String)
    (out_sum inv_id signature password_2 : String)
    (shp_params : List (String × String)) : Bool :=
  let expected_signature := strUpper (md5Hex (callback_signature_str out_sum inv_id
    password_2 shp_params))
  let received_signature := strUpper signature
  received_signature == expected_signature

/-- The reply body `OK{InvId}` + newline (`format_callback_response`). -/
def format_callback_response (inv_id : String) : String :=
  "OK" ++ inv_id ++ "\n"

/-- The Shp entry contributed by one optional form field: Python truthiness,
so a missing or empty field contributes nothing. -/
def optEntry (k : String) (v : Option String) : List (String × String) :=
  match v with
  | some s => if s = "" then [] else [(k, s)]
  | none => []

/-- The Shp parameter dict built by `robokassa_callback` (insertion order
payment_id, tariff_id, user_id; the verification sorts it anyway). -/
def shpParamsOf (Shp_payment_id Shp_user_id Shp_tariff_id : Option String) :
    List (String × String) :=
  optEntry "Shp_payment_id" Shp_payment_id ++ optEntry "Shp_tariff_id" Shp_tariff_id ++
    optEntry "Shp_user_id" Shp_user_id

/-- The signature gate of `robokassa_callback` (app/api/payments.py lines
223-247): with a configured (truthy) Password #2, a failed verification
raises HTTP 400; an unset password skips verification entirely. -/
def signature_rejected (md5Hex : String → String) (password_2 : Option String)
    (OutSum InvId SignatureValue : String) (shp_params : List (String × String)) : Bool :=
  match password_2 with
  | some p2 =>
    if p2 = "" then false
    else !(verify_callback_signature md5Hex OutSum InvId SignatureValue p2 shp_params)
  | none => false

/-- What the callback handler returns to Robokassa. -/
inductive RoboResponse where
  | okBody (body : String)
  | httpError (code : Nat)
deriving DecidableEq, Repr

/-- `robokassa_callback` (app/api/payments.py lines 194-344). `parseUUID`
stands for `uuid.UUID(...)` (None = `ValueError`), `amountMatches` for
`verify_amount` (the Decimal comparison within 0.01). After the signature
gate: resolve the payment id (`Shp_payment_id or InvId`), 404 on an unknown
payment, idempotent OK when already COMPLETED, 400 on an amount mismatch,
otherwise one commit writing COMPLETED + `completed_at` and — when the user
row exists — the balance increment. -/
def robokassa_callback (md5Hex : String → String) (parseUUID : String → Option Nat)
    (amountMatches : Int → String → Bool) (password_2 : Option String) (now : Int)
    (db : PayDB) (OutSum InvId SignatureValue : String)
    (Shp_payment_id Shp_user_id Shp_tariff_id : Option String) : PayDB × RoboResponse :=
  let shp_params := shpParamsOf Shp_payment_id Shp_user_id Shp_tariff_id
  if signature_rejected md5Hex password_2 OutSum InvId SignatureValue shp_params then
    (db, .httpError 400)
  else
    let payment_id_str :=
      match Shp_payment_id with
      | some s => if s = "" then InvId else s
      | none => InvId
    match parseUUID payment_id_str with
    | none => (db, .httpError 400)
    | some pid =>
      match findPayment db.payments pid with
      | none => (db, .httpError 404)
      | some payment =>
        if payment.status = .completed then
          (db, .okBody (format_callback_response InvId))
        else if !(amountMatches payment.amount OutSum) then
          (db, .httpError 400)
        else
          ({ db with
              payments := db.payments.map fun p =>
                if p.payment_id = pid then
                  { p with status := .completed, completed_at := some now }
                else p,
              users :=
                match findUser db.users payment.user_id with
                | some _ => db.users.map fun u =>
                    if u.user_id = payment.user_id then
                      { u with checks_balance := u.checks_balance + payment.checks_count }
                    else u
                | none => db.users },
           .okBody (format_callback_response InvId))

/-- C7 counterexample, with the digest abstracted as the identity (the two
base strings differ, so any digest exhibits the mismatch): a callback signed
exactly as the claim prescribes — over the MerchantLogin-prefixed string — is
rejected, while the signature over `OutSum:InvId:Password2` is accepted, and
the two base strings are distinct. -/
theorem verify_callback_signature_counterexample :
    verify_callback_signature (fun s => s) "100.00" "5" "LOGIN:100.00:5:P2" "p2" [] = false
    ∧ strUpper (specCallbackSignatureBase "login" "100.00" "5" "p2" [])
        = "LOGIN:100.00:5:P2"
    ∧ verify_callback_signature (fun s => s) "100.00" "5" "100.00:5:P2" "p2" [] = true
    ∧ callback_signature_str "100.00" "5" "p2" []
        ≠ specCallbackSignatureBase "login" "100.00" "5" "p2" [] := by
  decide

/-- C7 amended. The callback signature is verified as the uppercase hex MD5
of `OutSum:InvId:Password2` with the sorted Shp fields appended —
MerchantLogin is not part of the hashed string — compared case-insensitively
against SignatureValue; and with Password #2 configured, a callback failing
this check is answered with HTTP 400 and the state unchanged. -/
theorem robokassa_callback_signature (md5Hex : String → String)
    (parseUUID : String → Option Nat) (amountMatches : Int → String → Bool)
    (p2 : String) (now : Int) (db : PayDB) (OutSum InvId SignatureValue : String)
    (sp su st : Option String) :
    (verify_callback_signature md5Hex OutSum InvId SignatureValue p2 (shpParamsOf sp su st)
       = (strUpper SignatureValue ==
           strUpper (md5Hex (callback_signature_str OutSum InvId p2 (shpParamsOf sp su st)))))
    ∧ (p2 ≠ "" →
       verify_callback_signature md5Hex OutSum InvId SignatureValue p2
         (shpParamsOf sp su st) = false →
       robokassa_callback md5Hex parseUUID amountMatches (some p2) now db OutSum InvId
         SignatureValue sp su st = (db, .httpError 400)) := by
  constructor
  · rfl
  · intro hp2 hbad
    have hrej : signature_rejected md5Hex (some p2) OutSum InvId SignatureValue
        (shpParamsOf sp su st) = true := by
      show (if p2 = "" then false
        else !(verify_callback_signature md5Hex OutSum InvId SignatureValue p2
          (shpParamsOf sp su st))) = true
      rw [if_neg hp2, hbad]
      rfl
    unfold robokassa_callback
    simp only [hrej]
    rfl

/-- Witness for `robokassa_callback_signature`: a wrong signature on a
concrete callback against `starsDB` is rejected with 400 and no change. -/
theorem robokassa_callback_signature_witness :
    (verify_callback_signature (fun s => s) "100.00" "5" "WRONG" "p2" (shpParamsOf none none none)
       = (strUpper "WRONG" ==
           strUpper ((fun s : String => s)
             (callback_signature_str "100.00" "5" "p2" (shpParamsOf none none none)))))
    ∧ robokassa_callback (fun s => s) (fun _ => none) (fun _ _ => true) (some "p2") 0 starsDB
        "100.00" "5" "WRONG" none none none = (starsDB, .httpError 400) :=
  ⟨(robokassa_callback_signature (fun s => s) (fun _ => none) (fun _ _ => true) "p2" 0 starsDB
      "100.00" "5" "WRONG" none none none).1,
   (robokassa_callback_signature (fun s => s) (fun _ => none) (fun _ _ => true) "p2" 0 starsDB
      "100.00" "5" "WRONG" none none none).2 (by decide) (by decide)⟩

end UnfollowerBot
